import Mathlib

/-!
Shallow embedding of src/mira.py (MiraWaitlistSubmitter) in Lean 4.

File contents (proxy file, email file) are modelled as
Option (List String): none stands for FileNotFoundError on open,
some lines for the sequence of lines read from the file.
Python str.strip() is modelled by py_strip and str.split(colon) by
py_split, both structurally recursive over the character list.
Randomness (random.choice, random.uniform, network behaviour) is
modelled by explicit oracle parameters.
-/

namespace Mira

/-- Log events emitted via the logging module (severity plus message). -/
inductive LogEvent where
  | info : String → LogEvent
  | warning : String → LogEvent
  | error : String → LogEvent
deriving DecidableEq, Repr

/-- ProxyConfig: record with fields ip, port, username, password
(mira.py lines 19-29). -/
structure ProxyConfig where
  ip : String
  port : String
  username : String
  password : String
deriving DecidableEq, Repr

instance : Inhabited ProxyConfig := ⟨⟨"", "", "", ""⟩⟩

/-- Model of Python str.strip on the character list: drop whitespace from
both ends (space, tab, CR, LF). -/
def strip_chars (cs : List Char) : List Char :=
  ((cs.dropWhile Char.isWhitespace).reverse.dropWhile Char.isWhitespace).reverse

/-- Model of Python str.strip. -/
def py_strip (s : String) : String :=
  ⟨strip_chars s.data⟩

/-- Model of Python str.split with a one-character separator, on the
character list: splitting the empty text yields one empty token, and each
separator occurrence opens a new token. -/
def split_chars (sep : Char) : List Char → List (List Char)
  | [] => [[]]
  | c :: rest =>
    match split_chars sep rest with
    | [] => [[]]
    | tok :: toks => if c = sep then [] :: tok :: toks else (c :: tok) :: toks

/-- Model of Python str.split with a one-character separator. -/
def py_split (s : String) (sep : Char) : List String :=
  (split_chars sep s.data).map (fun cs => ⟨cs⟩)

/-- ProxyConfig.__init__ (mira.py lines 20-29): strip the proxy string and
split on the colon; exactly four tokens construct the record, anything
else raises ValueError, modelled as none. -/
def ProxyConfig.parse (proxy_string : String) : Option ProxyConfig :=
  match py_split (py_strip proxy_string) ':' with
  | [ip, port, username, password] => some ⟨ip, port, username, password⟩
  | _ => none

/-- The user:pass at ip:port fragment built by get_proxy_dict (line 33). -/
def proxy_auth (p : ProxyConfig) : String :=
  p.username ++ ":" ++ p.password ++ "@" ++ p.ip ++ ":" ++ p.port

/-- ProxyConfig.get_proxy_dict (mira.py lines 31-37): the requests proxies
dict, an association list keyed by transport scheme. Both entries use the
literal http scheme in the endpoint URL, as in the source. -/
def ProxyConfig.get_proxy_dict (p : ProxyConfig) : List (String × String) :=
  [("http", "http://" ++ proxy_auth p), ("https", "http://" ++ proxy_auth p)]

/-- The per-line loop body of load_proxies (mira.py lines 70-76): try to
parse each line, appending on success; a ValueError is caught, logged as
an error and the loop continues. ProxyConfig is called on line.strip(),
and the constructor strips its argument again, so the outer strip is
already performed by ProxyConfig.parse. The ValueError message embeds the
stripped line (line 29). -/
def proxy_loop (lines : List String) : List ProxyConfig × List LogEvent :=
  match lines with
  | [] => ([], [])
  | line :: rest =>
    let r := proxy_loop rest
    match ProxyConfig.parse line with
    | some p => (p :: r.1, r.2)
    | none =>
        (r.1, LogEvent.error ("Error parsing proxy: Invalid proxy format: " ++ py_strip line) :: r.2)

/-- MiraWaitlistSubmitter.load_proxies (mira.py lines 65-81), with its log
output: FileNotFoundError yields an empty pool and an error log; otherwise
each line runs through proxy_loop and an info log reports the count. -/
def load_proxies_run (filename : String) (content : Option (List String)) :
    List ProxyConfig × List LogEvent :=
  match content with
  | none => ([], [LogEvent.error ("Proxy file " ++ filename ++ " not found")])
  | some lines =>
    let r := proxy_loop lines
    (r.1, r.2 ++ [LogEvent.info ("Loaded " ++ toString r.1.length ++ " proxies successfully")])

/-- The proxy pool returned by load_proxies. -/
def load_proxies (filename : String) (content : Option (List String)) : List ProxyConfig :=
  (load_proxies_run filename content).1

/-- MiraWaitlistSubmitter.load_emails (mira.py lines 92-104), with its log
output: the list comprehension keeps line.strip() for each line whose
stripped form is non-empty; FileNotFoundError yields an empty list and an
error log. -/
def load_emails_run (filename : String) (content : Option (List String)) :
    List String × List LogEvent :=
  match content with
  | none => ([], [LogEvent.error ("Email file " ++ filename ++ " not found")])
  | some lines =>
    let emails := lines.filterMap (fun line => if py_strip line = "" then none else some (py_strip line))
    (emails, [LogEvent.info ("Loaded " ++ toString emails.length ++ " email addresses")])

/-- The email list returned by load_emails. -/
def load_emails (filename : String) (content : Option (List String)) : List String :=
  (load_emails_run filename content).1

/-- MiraWaitlistSubmitter.get_random_proxy (mira.py lines 83-90): empty
pool yields the empty dict; otherwise random.choice picks one record,
modelled by an oracle index reduced modulo the pool size, and the record
is converted with get_proxy_dict. -/
def get_random_proxy (proxies : List ProxyConfig) (idx : Nat) : List (String × String) :=
  match proxies with
  | [] => []
  | p :: rest =>
      (((p :: rest).get ⟨idx % (p :: rest).length, Nat.mod_lt _ (Nat.succ_pos _)⟩)).get_proxy_dict

/-- JSON values as produced by response.json(), i.e. by json.loads. -/
inductive JsonVal where
  | null : JsonVal
  | bool : Bool → JsonVal
  | num : Int → JsonVal
  | str : String → JsonVal
  | arr : List JsonVal → JsonVal
  | obj : List (String × JsonVal) → JsonVal

/-- Python dict.get on a parsed JSON object. json.loads builds the dict in
key order so a duplicate key keeps its last value, hence the lookup scans
the reversed association list. Absent key yields None. -/
def dict_get (kvs : List (String × JsonVal)) (key : String) : Option JsonVal :=
  (kvs.reverse.find? (fun kv => kv.1 == key)).map (fun kv => kv.2)

/-- An HTTP response as seen by the code: a status code, and the result of
response.json() — none when the body is not valid JSON (JSONDecodeError). -/
structure Response where
  status_code : Nat
  body : Option JsonVal

/-- The Python expression (response_data.get key) is True: true only for
the JSON boolean true, never for numbers or anything else. -/
def py_is_true : Option JsonVal → Bool
  | some (JsonVal.bool true) => true
  | _ => false

/-- The Python expression (response_data.get key) == s for a string
literal s: Python equality across types is false, so only a JSON string
with the same text compares equal. -/
def py_eq_str (v : Option JsonVal) (s : String) : Bool :=
  match v with
  | some (JsonVal.str t) => t == s
  | _ => false

/-- MiraWaitlistSubmitter.check_response_success (mira.py lines 110-121):
response.json() raising JSONDecodeError is caught and yields false; a
parsed body that is not a dict makes .get raise AttributeError, caught by
the bare except and yielding false; otherwise the success field must be
exactly the boolean true and the message field exactly the fixed text. -/
def check_response_success (response : Response) : Bool :=
  match response.body with
  | some (JsonVal.obj kvs) =>
      py_is_true (dict_get kvs "success") &&
        py_eq_str (dict_get kvs "message") "Added to waitlist successfully"
  | _ => false

/-- The transport-level failure modes of session.post, all of them
subclasses of requests.RequestException. -/
inductive TransportFailure where
  | connectionFailure : TransportFailure
  | timeout : TransportFailure
  | proxyFailure : TransportFailure
deriving DecidableEq, Repr

/-- What the network call inside submit_email does: either raise a
requests.RequestException or return a Response. -/
inductive RequestOutcome where
  | raised : TransportFailure → RequestOutcome
  | ok : Response → RequestOutcome

/-- Python exceptions that can escape the try block of submit_email:
from the source the only raise site is session.post, whose failures are
RequestException instances. -/
inductive PyError where
  | requestException : TransportFailure → PyError
deriving DecidableEq, Repr

set_option linter.unusedVariables false in
/-- The try block of submit_email (mira.py lines 125-148): build the
payload, pick a proxy, post, then test status_code == 200 together with
check_response_success. A raise from session.post escapes the block. The
proxy dict is forwarded to the post call and does not alter the decision,
which is why it is unused below. -/
def try_submit_body (proxy : List (String × String)) (outcome : RequestOutcome) :
    Except PyError Bool :=
  match outcome with
  | RequestOutcome.raised f => Except.error (PyError.requestException f)
  | RequestOutcome.ok response =>
      Except.ok (response.status_code == 200 && check_response_success response)

/-- MiraWaitlistSubmitter.submit_email (mira.py lines 123-152): the try
block with its except requests.RequestException handler, which logs and
returns false. The proxy argument is the dict from get_random_proxy; an
empty dict simply means the post is made without a proxy. -/
def submit_email (proxy : List (String × String)) (outcome : RequestOutcome) :
    Except PyError Bool :=
  match try_submit_body proxy outcome with
  | Except.error (PyError.requestException _) => Except.ok false
  | r => r

/-- Observable events of the process_emails loop, in program order: one
line written to results_mira.txt and flushed, or one pacing sleep. -/
inductive Event where
  | write : String → Event
  | sleep : Event
deriving DecidableEq, Repr

/-- The line written for one email (mira.py lines 168-173), without its
trailing newline: the write calls append exactly one newline-terminated
line per email. -/
def outcome_line (email : String) (ok : Bool) : String :=
  if ok then email ++ ": SUCCESS" else email ++ ": FAILED"

/-- The for loop of process_emails (mira.py lines 165-179) over
enumerate(emails, 1): at 1-based index i, submit the email (the boolean
outcome of the i-th submit_email call is given by the oracle submit),
write and flush the outcome line, and sleep only when i < len(emails).
n is len(emails). -/
def process_loop (submit : Nat → Bool) (n : Nat) (i : Nat) (emails : List String) :
    List Event :=
  match emails with
  | [] => []
  | email :: rest =>
      Event.write (outcome_line email (submit i)) ::
        ((if i < n then [Event.sleep] else []) ++ process_loop submit n (i + 1) rest)

/-- MiraWaitlistSubmitter.process_emails (mira.py lines 154-182): load the
emails; an empty list returns before results_mira.txt is opened (none);
otherwise the file is opened for writing and the loop runs (some trace). -/
def process_emails (submit : Nat → Bool) (email_file : String)
    (content : Option (List String)) : Option (List Event) :=
  let emails := load_emails email_file content
  if emails.isEmpty then none
  else some (process_loop submit emails.length 1 emails)

/-- The lines present in results_mira.txt after a trace of events: each
write event contributes its line. -/
def result_lines (trace : List Event) : List String :=
  trace.filterMap (fun e => match e with | Event.write s => some s | Event.sleep => none)

/-- Specification-side description of the result file (spec section 4.4,
section 8): one outcome line per email, in input order. -/
def spec_result_lines (submit : Nat → Bool) (i : Nat) (emails : List String) : List String :=
  match emails with
  | [] => []
  | email :: rest => outcome_line email (submit i) :: spec_result_lines submit (i + 1) rest

/-- Model of random.uniform a b from the Python standard library:
a + (b - a) * u where u is the unit-interval sample; defined for either
order of a and b, and raises nothing. -/
def uniform (a b u : ℚ) : ℚ :=
  a + (b - a) * u

/-- The default delay_range of process_emails (mira.py line 154). -/
def default_delay_range : ℚ × ℚ := (2, 0)

/-! ## Helper lemmas -/

lemma parse_some_iff (line : String) (p : ProxyConfig) :
    ProxyConfig.parse line = some p ↔
      py_split (py_strip line) ':' = [p.ip, p.port, p.username, p.password] := by
  cases p with
  | mk ip port username password =>
    rcases h : py_split (py_strip line) ':' with _ | ⟨a, _ | ⟨b, _ | ⟨c, _ | ⟨d, _ | ⟨e, rest⟩⟩⟩⟩⟩ <;>
      simp [ProxyConfig.parse, h]

lemma proxy_loop_mem (p : ProxyConfig) (lines : List String) :
    p ∈ (proxy_loop lines).1 ↔ ∃ line ∈ lines, ProxyConfig.parse line = some p := by
  induction lines with
  | nil => simp [proxy_loop]
  | cons line rest ih =>
    cases hp : ProxyConfig.parse line with
    | none => simp [proxy_loop, hp, ih]
    | some q =>
      simp only [proxy_loop, hp, List.mem_cons, ih]
      constructor
      · rintro (rfl | ⟨l, hl, hpl⟩)
        · exact ⟨line, Or.inl rfl, hp⟩
        · exact ⟨l, Or.inr hl, hpl⟩
      · rintro ⟨l, (rfl | hl), hpl⟩
        · left; rw [hp] at hpl; exact (Option.some_inj.mp hpl).symm
        · right; exact ⟨l, hl, hpl⟩

lemma filterMap_trim_eq (lines : List String) :
    lines.filterMap (fun line => if py_strip line = "" then none else some (py_strip line)) =
      (lines.map py_strip).filter (fun s => s != "") := by
  induction lines with
  | nil => rfl
  | cons line rest ih =>
    by_cases h : py_strip line = "" <;>
      simp [List.filterMap_cons, List.filter_cons, h, ih]

/-! ## Claims about the loaders -/

/-- C4: load_proxies turns each well-formed line (exactly four
colon-separated tokens) into a record whose fields are those four tokens,
excludes every malformed line without aborting the load, and yields an
empty pool for a missing file. -/
theorem load_proxies_parses_wellformed_lines :
    (∀ fn, load_proxies fn none = []) ∧
    (∀ fn (lines : List String),
      (∀ line ∈ lines, ∀ a b c d, py_split (py_strip line) ':' = [a, b, c, d] →
        ProxyConfig.mk a b c d ∈ load_proxies fn (some lines)) ∧
      (∀ p ∈ load_proxies fn (some lines), ∃ line ∈ lines,
        py_split (py_strip line) ':' = [p.ip, p.port, p.username, p.password])) := by
  refine ⟨fun fn => rfl, fun fn lines => ⟨?_, ?_⟩⟩
  · intro line hline a b c d hsplit
    have : ProxyConfig.parse line = some (ProxyConfig.mk a b c d) :=
      (parse_some_iff line _).mpr hsplit
    exact (proxy_loop_mem _ lines).mpr ⟨line, hline, this⟩
  · intro p hp
    obtain ⟨line, hline, hparse⟩ := (proxy_loop_mem p lines).mp hp
    exact ⟨line, hline, (parse_some_iff line p).mp hparse⟩

/-- C4 witness: a concrete pool with one well-formed and one malformed
line. -/
theorem load_proxies_parses_wellformed_lines_witness :
    ProxyConfig.mk "10.0.0.1" "8080" "user" "pass" ∈
      load_proxies "proxies.txt" (some ["10.0.0.1:8080:user:pass", "bad line"]) :=
  (load_proxies_parses_wellformed_lines.2 "proxies.txt"
    ["10.0.0.1:8080:user:pass", "bad line"]).1
    "10.0.0.1:8080:user:pass" (by simp) "10.0.0.1" "8080" "user" "pass" (by decide)

/-- C5: load_emails returns exactly the non-blank lines, trimmed, in
input order, and a missing source yields an empty sequence. -/
theorem load_emails_trims_and_filters :
    (∀ fn, load_emails fn none = []) ∧
    (∀ fn (lines : List String),
      load_emails fn (some lines) = (lines.map py_strip).filter (fun s => s != "")) := by
  exact ⟨fun fn => rfl, fun fn lines => filterMap_trim_eq lines⟩

/-- C10: a blank or whitespace-only proxy line is a parse failure, logged
as an error and excluded from the pool, while the email loader drops a
blank line silently, with no error log. -/
theorem blank_proxy_line_logged_error (blank : String) (hblank : py_strip blank = "") :
    ProxyConfig.parse blank = none ∧
    load_proxies "proxies.txt" (some [blank]) = [] ∧
    (∃ msg, LogEvent.error msg ∈ (load_proxies_run "proxies.txt" (some [blank])).2) ∧
    load_emails "emails.txt" (some [blank]) = [] ∧
    (∀ msg, LogEvent.error msg ∉ (load_emails_run "emails.txt" (some [blank])).2) := by
  have hparse : ProxyConfig.parse blank = none := by
    unfold ProxyConfig.parse
    rw [hblank]
    rfl
  refine ⟨hparse, ?_, ?_, ?_, ?_⟩
  · simp [load_proxies, load_proxies_run, proxy_loop, hparse]
  · exact ⟨"Error parsing proxy: Invalid proxy format: " ++ py_strip blank,
      by simp [load_proxies_run, proxy_loop, hparse]⟩
  · simp [load_emails, load_emails_run, hblank]
  · intro msg
    simp [load_emails_run, hblank]

/-- C10 witness: the whitespace-only line. -/
theorem blank_proxy_line_logged_error_witness :
    ProxyConfig.parse "   " = none ∧ load_proxies "proxies.txt" (some ["   "]) = [] := by
  have h := blank_proxy_line_logged_error "   " (by decide)
  exact ⟨h.1, h.2.1⟩

/-! ## Lemmas about response checking and submission -/

lemma py_is_true_iff (v : Option JsonVal) :
    py_is_true v = true ↔ v = some (JsonVal.bool true) := by
  cases v with
  | none => simp [py_is_true]
  | some j =>
    cases j with
    | bool b => cases b <;> simp [py_is_true]
    | _ => simp [py_is_true]

lemma py_eq_str_iff (v : Option JsonVal) (s : String) :
    py_eq_str v s = true ↔ v = some (JsonVal.str s) := by
  cases v with
  | none => simp [py_eq_str]
  | some j =>
    cases j with
    | str t => simp [py_eq_str, beq_iff_eq]
    | _ => simp [py_eq_str]

lemma check_response_success_iff (r : Response) :
    check_response_success r = true ↔
      ∃ kvs, r.body = some (JsonVal.obj kvs) ∧
        dict_get kvs "success" = some (JsonVal.bool true) ∧
        dict_get kvs "message" = some (JsonVal.str "Added to waitlist successfully") := by
  cases hb : r.body with
  | none => simp [check_response_success, hb]
  | some j =>
    cases j with
    | obj kvs =>
      simp [check_response_success, hb, Bool.and_eq_true, py_is_true_iff, py_eq_str_iff]
    | _ => simp [check_response_success, hb]

lemma submit_email_ok (proxy : List (String × String)) (r : Response) :
    submit_email proxy (RequestOutcome.ok r) =
      Except.ok (r.status_code == 200 && check_response_success r) := rfl

lemma submit_email_raised (proxy : List (String × String)) (f : TransportFailure) :
    submit_email proxy (RequestOutcome.raised f) = Except.ok false := rfl

/-! ## Claims about the submission client -/

/-- C2: submit_email answers true exactly when the HTTP status is 200 and
the body parses as a JSON object whose success field is the boolean true
and whose message field is the exact confirmation string; everything else
yields false. -/
theorem submit_email_success_iff :
    ∀ (proxy : List (String × String)) (outcome : RequestOutcome),
      (submit_email proxy outcome = Except.ok true ↔
        ∃ r kvs, outcome = RequestOutcome.ok r ∧ r.status_code = 200 ∧
          r.body = some (JsonVal.obj kvs) ∧
          dict_get kvs "success" = some (JsonVal.bool true) ∧
          dict_get kvs "message" = some (JsonVal.str "Added to waitlist successfully")) ∧
      (submit_email proxy outcome = Except.ok true ∨
        submit_email proxy outcome = Except.ok false) := by
  intro proxy outcome
  cases outcome with
  | raised f =>
    refine ⟨?_, Or.inr (submit_email_raised proxy f)⟩
    rw [submit_email_raised]
    simp
  | ok r =>
    constructor
    · rw [submit_email_ok]
      simp only [Except.ok.injEq, Bool.and_eq_true, beq_iff_eq, check_response_success_iff]
      constructor
      · rintro ⟨hs, kvs, hb, hsucc, hmsg⟩
        exact ⟨r, kvs, rfl, hs, hb, hsucc, hmsg⟩
      · rintro ⟨r2, kvs, heq, hs, hb, hsucc, hmsg⟩
        cases heq
        exact ⟨hs, kvs, hb, hsucc, hmsg⟩
    · rw [submit_email_ok]
      cases (r.status_code == 200 && check_response_success r)
      · exact Or.inr rfl
      · exact Or.inl rfl

/-- C3: submit_email never lets an exception reach its caller: every
outcome of the network call produces a boolean, transport failures
(connection failure, timeout, proxy failure) are caught and yield false,
and a non-200 status, an unparsable body or a body of unexpected shape
also yield false. -/
theorem submit_email_never_raises :
    (∀ (proxy : List (String × String)) (outcome : RequestOutcome),
      ∃ b : Bool, submit_email proxy outcome = Except.ok b) ∧
    (∀ proxy f, submit_email proxy (RequestOutcome.raised f) = Except.ok false) ∧
    (∀ proxy (r : Response), r.status_code ≠ 200 →
      submit_email proxy (RequestOutcome.ok r) = Except.ok false) ∧
    (∀ proxy (r : Response), r.body = none →
      submit_email proxy (RequestOutcome.ok r) = Except.ok false) ∧
    (∀ proxy (r : Response) (v : JsonVal), r.body = some v →
      (∀ kvs, v ≠ JsonVal.obj kvs) →
      submit_email proxy (RequestOutcome.ok r) = Except.ok false) := by
  refine ⟨?_, fun proxy f => submit_email_raised proxy f, ?_, ?_, ?_⟩
  · intro proxy outcome
    cases outcome with
    | raised f => exact ⟨false, submit_email_raised proxy f⟩
    | ok r => exact ⟨_, submit_email_ok proxy r⟩
  · intro proxy r hs
    rw [submit_email_ok]
    have : (r.status_code == 200) = false := by simp [hs]
    rw [this, Bool.false_and]
  · intro proxy r hb
    rw [submit_email_ok]
    have : check_response_success r = false := by
      simp [check_response_success, hb]
    rw [this, Bool.and_false]
  · intro proxy r v hb hshape
    rw [submit_email_ok]
    have : check_response_success r = false := by
      unfold check_response_success
      rw [hb]
      cases v with
      | obj kvs => exact absurd rfl (hshape kvs)
      | _ => rfl
    rw [this, Bool.and_false]

/-- C3 witness: a timeout, a 429 with unparsable body, and a 200 whose
body is a JSON array all come back as the boolean false, not an error. -/
theorem submit_email_never_raises_witness :
    submit_email [] (RequestOutcome.raised TransportFailure.timeout) = Except.ok false ∧
    submit_email [] (RequestOutcome.ok ⟨429, none⟩) = Except.ok false ∧
    submit_email [] (RequestOutcome.ok ⟨200, some (JsonVal.arr [])⟩) = Except.ok false :=
  ⟨submit_email_never_raises.2.1 [] TransportFailure.timeout,
   submit_email_never_raises.2.2.2.1 [] ⟨429, none⟩ rfl,
   submit_email_never_raises.2.2.2.2 [] ⟨200, some (JsonVal.arr [])⟩ (JsonVal.arr [])
     rfl (fun _ h => JsonVal.noConfusion h)⟩

/-- C7: with an empty pool get_random_proxy returns the empty dict and
the submission still completes with a boolean outcome; with a non-empty
pool it returns the two scheme-keyed endpoint strings of one record of
the pool, both built from the same record. -/
theorem get_random_proxy_empty_or_pair :
    ∀ (proxies : List ProxyConfig) (idx : Nat),
      (proxies = [] → get_random_proxy proxies idx = []) ∧
      (proxies ≠ [] → ∃ p ∈ proxies,
        get_random_proxy proxies idx =
          [("http", "http://" ++ proxy_auth p), ("https", "http://" ++ proxy_auth p)]) ∧
      (∀ outcome, ∃ b : Bool, submit_email (get_random_proxy [] idx) outcome = Except.ok b) := by
  intro proxies idx
  refine ⟨?_, ?_, ?_⟩
  · rintro rfl; rfl
  · intro hne
    cases proxies with
    | nil => exact absurd rfl hne
    | cons p rest =>
      refine ⟨(p :: rest).get ⟨idx % (p :: rest).length, Nat.mod_lt _ (Nat.succ_pos _)⟩,
        List.get_mem _ _ _, rfl⟩
  · intro outcome
    cases outcome with
    | raised f => exact ⟨false, rfl⟩
    | ok r => exact ⟨_, rfl⟩

/-- C7 witness: a two-element pool and the empty pool at a concrete
index. -/
theorem get_random_proxy_empty_or_pair_witness :
    get_random_proxy [] 5 = [] ∧
    ∃ p ∈ [ProxyConfig.mk "a" "1" "u" "x", ProxyConfig.mk "b" "2" "v" "y"],
      get_random_proxy [ProxyConfig.mk "a" "1" "u" "x", ProxyConfig.mk "b" "2" "v" "y"] 5 =
        [("http", "http://" ++ proxy_auth p), ("https", "http://" ++ proxy_auth p)] :=
  ⟨(get_random_proxy_empty_or_pair [] 5).1 rfl,
   (get_random_proxy_empty_or_pair
     [ProxyConfig.mk "a" "1" "u" "x", ProxyConfig.mk "b" "2" "v" "y"] 5).2.1
     (by simp)⟩

/-! ## Lemmas about the run loop -/

lemma result_lines_process_loop (submit : Nat → Bool) (n : Nat) :
    ∀ (emails : List String) (i : Nat),
      result_lines (process_loop submit n i emails) = spec_result_lines submit i emails := by
  intro emails
  induction emails with
  | nil => intro i; rfl
  | cons e rest ih =>
    intro i
    by_cases h : i < n <;>
      simp [process_loop, result_lines, spec_result_lines, h, List.filterMap_append] <;>
      simpa [result_lines] using ih (i + 1)

lemma spec_result_lines_length (submit : Nat → Bool) :
    ∀ (emails : List String) (i : Nat),
      (spec_result_lines submit i emails).length = emails.length := by
  intro emails
  induction emails with
  | nil => intro i; rfl
  | cons e rest ih => intro i; simp [spec_result_lines, ih (i + 1)]

lemma result_lines_take (trace : List Event) (k : Nat) :
    ∃ rest, result_lines (trace.take k) ++ rest = result_lines trace := by
  refine ⟨result_lines (trace.drop k), ?_⟩
  unfold result_lines
  rw [← List.filterMap_append, List.take_append_drop]

lemma process_emails_some (submit : Nat → Bool) (fn : String)
    (content : Option (List String)) (trace : List Event)
    (h : process_emails submit fn content = some trace) :
    load_emails fn content ≠ [] ∧
    trace = process_loop submit (load_emails fn content).length 1 (load_emails fn content) := by
  unfold process_emails at h
  by_cases he : (load_emails fn content).isEmpty
  · rw [if_pos he] at h
    exact absurd h (by simp)
  · rw [if_neg he] at h
    exact ⟨by simpa [List.isEmpty_iff] using he, (Option.some_inj.mp h).symm⟩

lemma process_loop_intersperse (submit : Nat → Bool) (n : Nat) :
    ∀ (emails : List String) (i : Nat), i + emails.length = n + 1 →
      process_loop submit n i emails =
        List.intersperse Event.sleep ((spec_result_lines submit i emails).map Event.write) := by
  intro emails
  induction emails with
  | nil => intro i h; rfl
  | cons e rest ih =>
    intro i h
    cases rest with
    | nil =>
      have hi : i = n := by simp at h; omega
      simp [process_loop, spec_result_lines, hi, List.intersperse_singleton]
    | cons e2 rs =>
      have hilt : i < n := by simp at h; omega
      have ih2 := ih (i + 1) (by simp at h ⊢; omega)
      have hloop : process_loop submit n i (e :: e2 :: rs) =
          Event.write (outcome_line e (submit i)) ::
            ((if i < n then [Event.sleep] else []) ++
              process_loop submit n (i + 1) (e2 :: rs)) := rfl
      have hspec : spec_result_lines submit i (e :: e2 :: rs) =
          outcome_line e (submit i) :: outcome_line e2 (submit (i + 1)) ::
            spec_result_lines submit (i + 1 + 1) rs := rfl
      rw [hloop, if_pos hilt, ih2, hspec, List.map_cons, List.map_cons,
        List.intersperse_cons_cons]
      rfl

lemma getLast?_intersperse {α : Type} (sep : α) :
    ∀ l : List α, (List.intersperse sep l).getLast? = l.getLast? := by
  intro l
  induction l with
  | nil => rfl
  | cons a t ih =>
    cases t with
    | nil => rfl
    | cons b u =>
      obtain ⟨tail, htail⟩ : ∃ tail, List.intersperse sep (b :: u) = b :: tail := by
        cases u with
        | nil => exact ⟨[], rfl⟩
        | cons c v => exact ⟨sep :: List.intersperse sep (c :: v), rfl⟩
      calc (List.intersperse sep (a :: b :: u)).getLast?
          = (a :: sep :: List.intersperse sep (b :: u)).getLast? := by
            rw [List.intersperse_cons_cons]
        _ = (sep :: List.intersperse sep (b :: u)).getLast? := List.getLast?_cons_cons
        _ = (List.intersperse sep (b :: u)).getLast? := by
            rw [htail]; exact List.getLast?_cons_cons
        _ = (b :: u).getLast? := ih
        _ = (a :: b :: u).getLast? := List.getLast?_cons_cons.symm

lemma map_write_getLast (x : String) (xs : List String) :
    ∃ s, ((x :: xs).map Event.write).getLast? = some (Event.write s) := by
  induction xs generalizing x with
  | nil => exact ⟨x, rfl⟩
  | cons y ys ih =>
    obtain ⟨s, hs⟩ := ih y
    exact ⟨s, by rw [List.map_cons, List.map_cons, List.getLast?_cons_cons, ← List.map_cons, hs]⟩

/-! ## Claims about the run loop -/

/-- C1: a run that opens the result file writes exactly one line per
loaded email, in input order, each line the SUCCESS or FAILED line of
that email according to its submission outcome, and since each line is
flushed as written, after any interruption point the file holds a prefix
of the final line sequence. -/
theorem process_emails_one_line_per_email :
    ∀ (submit : Nat → Bool) (fn : String) (content : Option (List String))
      (trace : List Event),
      process_emails submit fn content = some trace →
        result_lines trace = spec_result_lines submit 1 (load_emails fn content) ∧
        (result_lines trace).length = (load_emails fn content).length ∧
        (∀ k, ∃ rest, result_lines (trace.take k) ++ rest = result_lines trace) := by
  intro submit fn content trace h
  obtain ⟨-, htr⟩ := process_emails_some submit fn content trace h
  subst htr
  refine ⟨result_lines_process_loop submit _ _ 1, ?_, fun k => result_lines_take _ k⟩
  rw [result_lines_process_loop submit _ _ 1, spec_result_lines_length]

/-- C1 witness: two emails, first submission succeeds, second fails. -/
theorem process_emails_one_line_per_email_witness :
    process_emails (fun i => i == 1) "emails.txt" (some ["a@x.com", "b@x.com"]) =
      some [Event.write "a@x.com: SUCCESS", Event.sleep, Event.write "b@x.com: FAILED"] ∧
    result_lines [Event.write "a@x.com: SUCCESS", Event.sleep, Event.write "b@x.com: FAILED"] =
      spec_result_lines (fun i => i == 1) 1
        (load_emails "emails.txt" (some ["a@x.com", "b@x.com"])) :=
  ⟨by decide,
   (process_emails_one_line_per_email (fun i => i == 1) "emails.txt"
     (some ["a@x.com", "b@x.com"])
     [Event.write "a@x.com: SUCCESS", Event.sleep, Event.write "b@x.com: FAILED"]
     (by decide)).1⟩

/-- C6: when the loaded email list is empty the run returns before the
result file is opened: no trace of writes or sleeps exists at all. -/
theorem process_emails_empty_no_result_file :
    ∀ (submit : Nat → Bool) (fn : String) (content : Option (List String)),
      load_emails fn content = [] → process_emails submit fn content = none := by
  intro submit fn content h
  unfold process_emails
  rw [if_pos (by simp [h])]

/-- C6 witness: a missing email file loads as the empty list and produces
no result file. -/
theorem process_emails_empty_no_result_file_witness :
    load_emails "emails.txt" none = [] ∧
    process_emails (fun _ => true) "emails.txt" none = none :=
  ⟨rfl, process_emails_empty_no_result_file (fun _ => true) "emails.txt" none rfl⟩

/-- C8: in the loop trace, one sleep follows each written outcome except
the last: the trace is the outcome writes interspersed with sleeps, and
the last event is a write, never a sleep. -/
theorem process_loop_sleep_iff_more_remain :
    ∀ (submit : Nat → Bool) (fn : String) (content : Option (List String))
      (trace : List Event),
      process_emails submit fn content = some trace →
        trace = List.intersperse Event.sleep
          ((spec_result_lines submit 1 (load_emails fn content)).map Event.write) ∧
        (∃ s, trace.getLast? = some (Event.write s)) := by
  intro submit fn content trace h
  obtain ⟨hne, htr⟩ := process_emails_some submit fn content trace h
  have heq : trace = List.intersperse Event.sleep
      ((spec_result_lines submit 1 (load_emails fn content)).map Event.write) := by
    rw [htr]
    exact process_loop_intersperse submit _ _ 1 (by omega)
  refine ⟨heq, ?_⟩
  have hlen : (spec_result_lines submit 1 (load_emails fn content)) ≠ [] := by
    intro hnil
    have := spec_result_lines_length submit (load_emails fn content) 1
    rw [hnil] at this
    exact hne (List.eq_nil_of_length_eq_zero this.symm)
  obtain ⟨x, xs, hx⟩ := List.exists_cons_of_ne_nil hlen
  obtain ⟨s, hs⟩ := map_write_getLast x xs
  refine ⟨s, ?_⟩
  rw [heq, getLast?_intersperse, hx, hs]

/-- C8 witness: with two emails the trace is write, sleep, write — one
sleep between the outcomes and none after the last. -/
theorem process_loop_sleep_iff_more_remain_witness :
    [Event.write "c@x.com: FAILED", Event.sleep, Event.write "d@x.com: SUCCESS"] =
      List.intersperse Event.sleep
        ((spec_result_lines (fun i => i == 2) 1
          (load_emails "emails.txt" (some ["c@x.com", "d@x.com"]))).map Event.write) :=
  (process_loop_sleep_iff_more_remain (fun i => i == 2) "emails.txt"
    (some ["c@x.com", "d@x.com"])
    [Event.write "c@x.com: FAILED", Event.sleep, Event.write "d@x.com: SUCCESS"]
    (by decide)).1

/-- C9: with the inverted default delay range (2, 0) the pacing delay is
still well defined: for every unit-interval sample it lies between 0 and
2, and it is not a constant of the sample. -/
theorem uniform_inverted_range_safe :
    (∀ u : ℚ, 0 ≤ u → u ≤ 1 →
      0 ≤ uniform default_delay_range.1 default_delay_range.2 u ∧
        uniform default_delay_range.1 default_delay_range.2 u ≤ 2) ∧
    (∃ u1 u2 : ℚ, 0 ≤ u1 ∧ u1 ≤ 1 ∧ 0 ≤ u2 ∧ u2 ≤ 1 ∧
      uniform default_delay_range.1 default_delay_range.2 u1 ≠
        uniform default_delay_range.1 default_delay_range.2 u2) := by
  constructor
  · intro u h0 h1
    simp only [uniform, default_delay_range]
    constructor <;> nlinarith
  · refine ⟨0, 1, by norm_num, by norm_num, by norm_num, by norm_num, ?_⟩
    simp [uniform, default_delay_range]

/-- C9 witness: the half sample. -/
theorem uniform_inverted_range_safe_witness :
    0 ≤ ((1 : ℚ) / 2) ∧ ((1 : ℚ) / 2) ≤ 1 ∧
    0 ≤ uniform default_delay_range.1 default_delay_range.2 ((1 : ℚ) / 2) ∧
    uniform default_delay_range.1 default_delay_range.2 ((1 : ℚ) / 2) ≤ 2 :=
  ⟨by norm_num, by norm_num,
   (uniform_inverted_range_safe.1 ((1 : ℚ) / 2) (by norm_num) (by norm_num)).1,
   (uniform_inverted_range_safe.1 ((1 : ℚ) / 2) (by norm_num) (by norm_num)).2⟩

end Mira
